import Mathlib

/-!
# Verification of the YouTube shorts fetch-merge-rank pipeline (src/app.py)

Shallow embedding of the pure core of `src/app.py`:

* `parse_iso_duration` — the ISO-8601 duration parser (src/app.py:69-93).
  Python exceptions are modelled by `Option`: `pyInt` models the builtin
  `int(...)` applied to the accumulated character run (raising = `none`).
* `viral_score` — the score function (src/app.py:96-110).  Python floats are
  modelled by `ℚ`; every fact proved below (exact values on integer inputs,
  zero/non-zero distinctions of sums of non-negative products) holds equally
  for IEEE doubles because no rounding step of the float computation can send
  a non-zero non-negative sum to zero or change an exact small-integer result
  used in the counterexample.
* the pagination loop, dedup step, batching loop, duration filter, row
  construction, sort and export guard of `search_and_export`
  (src/app.py:241-387).

Upstream services are modelled as data: the search endpoint as a finite list
of pages (each page says which ids it returns for a requested page size and
whether it carries a continuation token), the video-detail endpoint as a
partial mapping from id to raw record.  The code issues no channel/owner
detail call anywhere, which the embedding records with a constant-zero owner
call counter.
-/

namespace ShortsAnalyzer

/-- Decimal-digit value of a character, as accepted by the Python builtin
`int(...)`: characters of Unicode numeric type Decimal (category Nd).
Tabulated Nd ranges: ASCII, Arabic-Indic, extended Arabic-Indic, Devanagari
and fullwidth digits; every `int(...)` argument arising in the theorems
below is decided inside this table. -/
def decDigitVal (c : Char) : Option Nat :=
  if 48 ≤ c.toNat ∧ c.toNat ≤ 57 then some (c.toNat - 48)
  else if 1632 ≤ c.toNat ∧ c.toNat ≤ 1641 then some (c.toNat - 1632)
  else if 1776 ≤ c.toNat ∧ c.toNat ≤ 1785 then some (c.toNat - 1776)
  else if 2406 ≤ c.toNat ∧ c.toNat ≤ 2415 then some (c.toNat - 2406)
  else if 65296 ≤ c.toNat ∧ c.toNat ≤ 65305 then some (c.toNat - 65296)
  else none

/-- Characters Python's `str.isdigit` accepts although `int(...)` rejects
them (Unicode numeric type Digit but not Decimal): the Latin-1 superscript
digits and the superscript/subscript digit blocks.  (Unicode has further
such characters; the model tabulates the ones the theorems below touch.
Every character of the full set lies outside ASCII, which is what the
all-ASCII case of the amended C10 relies on.) -/
def digitNotDecimal (c : Char) : Bool :=
  decide (c = '¹' ∨ c = '²' ∨ c = '³' ∨
    (8304 ≤ c.toNat ∧ c.toNat ≤ 8313) ∨ (8320 ≤ c.toNat ∧ c.toNat ≤ 8329))

/-- Python's Unicode-aware `ch.isdigit()` (src/app.py:80): true for decimal
digits and also for digit-only characters such as '²'. -/
def pyIsDigit (c : Char) : Bool :=
  (decDigitVal c).isSome || digitNotDecimal c

/-- Model of the Python builtin `int(...)` applied to the digit accumulator
`num` of `parse_iso_duration`: succeeds (with the decimal value) exactly on
a non-empty run of decimal digits; a digit-only character such as '²'
passes `isdigit()` but makes `int(...)` raise `ValueError` (`none`). -/
def pyInt (s : List Char) : Option Int :=
  if s ≠ [] ∧ s.all (fun c => (decDigitVal c).isSome) then
    some (s.foldl (fun a c => a * 10 + (((decDigitVal c).getD 0 : Nat) : Int)) 0)
  else none

/-- One step of the character loop of `parse_iso_duration`
(src/app.py:79-92), on the state `(total_seconds, num)`.  A raised exception
(`none`) propagates. -/
def durStep (st : Option (Int × List Char)) (ch : Char) : Option (Int × List Char) :=
  match st with
  | none => none
  | some (total, num) =>
    if pyIsDigit ch then some (total, num ++ [ch])
    else if num = [] then some (total, num)
    else
      match pyInt num with
      | none => none
      | some value =>
        if ch = 'H' then some (total + value * 3600, [])
        else if ch = 'M' then some (total + value * 60, [])
        else if ch = 'S' then some (total + value, [])
        else some (total, [])

/-- `parse_iso_duration` (src/app.py:69-93): strings that do not start with
the characters 'P','T' (the `duration.startswith("PT")` test, taken at code
points) yield `0`; otherwise the remaining characters (`duration[2:]`, also
a code-point slice) are folded through `durStep` and the accumulated total
is returned.  `none` models an uncaught exception. -/
def parse_iso_duration (duration : String) : Option Int :=
  if duration.toList.take 2 ≠ ['P', 'T'] then some 0
  else ((duration.toList.drop 2).foldl durStep (some (0, []))).map Prod.fst

lemma foldl_durStep_none (cs : List Char) : cs.foldl durStep none = none := by
  induction cs with
  | nil => rfl
  | cons c cs ih => simpa [durStep] using ih

lemma decVal_foldl_nonneg (s : List Char) :
    ∀ a : Int, 0 ≤ a →
    0 ≤ s.foldl (fun a c => a * 10 + (((decDigitVal c).getD 0 : Nat) : Int)) a := by
  induction s with
  | nil => intro a ha; simpa using ha
  | cons c cs ih =>
    intro a ha
    rw [List.foldl_cons]
    refine ih _ ?_
    have hd : (0 : Int) ≤ (((decDigitVal c).getD 0 : Nat) : Int) := Int.ofNat_nonneg _
    nlinarith

lemma pyInt_nonneg {num : List Char} {v : Int} (h : pyInt num = some v) : 0 ≤ v := by
  unfold pyInt at h
  split_ifs at h
  obtain rfl := Option.some.inj h
  exact decVal_foldl_nonneg num 0 le_rfl

lemma pyInt_decimal_some (num : List Char) (hne : num ≠ [])
    (hd : num.all (fun c => (decDigitVal c).isSome) = true) :
    ∃ v, pyInt num = some v ∧ 0 ≤ v := by
  refine ⟨_, ?_, decVal_foldl_nonneg num 0 le_rfl⟩
  simp [pyInt, hne, hd]

lemma durStep_fold_sound (cs : List Char) :
    ∀ (t : Int) (num : List Char), 0 ≤ t →
    ∀ (t' : Int) (num' : List Char),
    cs.foldl durStep (some (t, num)) = some (t', num') → 0 ≤ t' := by
  induction cs with
  | nil =>
    intro t num ht t' num' h
    simp only [List.foldl_nil, Option.some.injEq, Prod.mk.injEq] at h
    exact h.1 ▸ ht
  | cons c cs ih =>
    intro t num ht t' num' h
    rw [List.foldl_cons] at h
    by_cases hdig : pyIsDigit c = true
    · rw [show durStep (some (t, num)) c = some (t, num ++ [c]) by
        simp [durStep, hdig]] at h
      exact ih t _ ht t' num' h
    · by_cases hemp : num = []
      · rw [show durStep (some (t, num)) c = some (t, num) by
          simp [durStep, hdig, hemp]] at h
        exact ih t num ht t' num' h
      · cases hpy : pyInt num with
        | none =>
          rw [show durStep (some (t, num)) c = none by
            simp [durStep, hdig, hemp, hpy]] at h
          rw [foldl_durStep_none] at h
          cases h
        | some v =>
          have hv : 0 ≤ v := pyInt_nonneg hpy
          by_cases hH : c = 'H'
          · subst hH
            rw [show durStep (some (t, num)) 'H' = some (t + v * 3600, []) by
              simp [durStep, hdig, hemp, hpy]] at h
            exact ih _ [] (by nlinarith) t' num' h
          · by_cases hM : c = 'M'
            · subst hM
              rw [show durStep (some (t, num)) 'M' = some (t + v * 60, []) by
                simp [durStep, hdig, hemp, hpy]] at h
              exact ih _ [] (by nlinarith) t' num' h
            · by_cases hS : c = 'S'
              · subst hS
                rw [show durStep (some (t, num)) 'S' = some (t + v, []) by
                  simp [durStep, hdig, hemp, hpy]] at h
                exact ih _ [] (by nlinarith) t' num' h
              · rw [show durStep (some (t, num)) c = some (t, []) by
                  simp [durStep, hdig, hemp, hpy, hH, hM, hS]] at h
                exact ih t [] ht t' num' h

lemma pyIsDigit_ascii {c : Char} (hc : c.toNat < 128) (h : pyIsDigit c = true) :
    (decDigitVal c).isSome = true := by
  unfold pyIsDigit at h
  rcases Bool.or_eq_true_iff.mp h with h1 | h1
  · exact h1
  · exfalso
    rcases of_decide_eq_true h1 with rfl | rfl | rfl | hr | hr
    · exact absurd hc (by decide)
    · exact absurd hc (by decide)
    · exact absurd hc (by decide)
    · omega
    · omega

lemma durStep_fold_ascii (cs : List Char) :
    (∀ c ∈ cs, c.toNat < 128) →
    ∀ (t : Int) (num : List Char), 0 ≤ t →
    num.all (fun c => (decDigitVal c).isSome) = true →
    ∃ t' num', cs.foldl durStep (some (t, num)) = some (t', num') ∧
      0 ≤ t' ∧ num'.all (fun c => (decDigitVal c).isSome) = true := by
  induction cs with
  | nil => intro _ t num ht hnum; exact ⟨t, num, rfl, ht, hnum⟩
  | cons c cs ih =>
    intro hascii t num ht hnum
    have hca : c.toNat < 128 := hascii c (List.mem_cons_self c cs)
    have hrest : ∀ x ∈ cs, x.toNat < 128 :=
      fun x hx => hascii x (List.mem_cons_of_mem c hx)
    by_cases hdig : pyIsDigit c = true
    · have hc : (decDigitVal c).isSome = true := pyIsDigit_ascii hca hdig
      have hnum' : (num ++ [c]).all (fun c => (decDigitVal c).isSome) = true := by
        simp [List.all_append, hnum, hc]
      rw [List.foldl_cons, show durStep (some (t, num)) c = some (t, num ++ [c]) by
        simp [durStep, hdig]]
      exact ih hrest t (num ++ [c]) ht hnum'
    · by_cases hemp : num = []
      · rw [List.foldl_cons, show durStep (some (t, num)) c = some (t, num) by
          simp [durStep, hdig, hemp]]
        exact ih hrest t num ht hnum
      · obtain ⟨v, hv, hv0⟩ := pyInt_decimal_some num hemp hnum
        by_cases hH : c = 'H'
        · subst hH
          rw [List.foldl_cons,
            show durStep (some (t, num)) 'H' = some (t + v * 3600, []) by
              simp [durStep, hdig, hemp, hv]]
          exact ih hrest _ [] (by nlinarith) (by simp)
        · by_cases hM : c = 'M'
          · subst hM
            rw [List.foldl_cons,
              show durStep (some (t, num)) 'M' = some (t + v * 60, []) by
                simp [durStep, hdig, hemp, hv]]
            exact ih hrest _ [] (by nlinarith) (by simp)
          · by_cases hS : c = 'S'
            · subst hS
              rw [List.foldl_cons,
                show durStep (some (t, num)) 'S' = some (t + v, []) by
                  simp [durStep, hdig, hemp, hv]]
              exact ih hrest _ [] (by nlinarith) (by simp)
            · rw [List.foldl_cons,
                show durStep (some (t, num)) c = some (t, []) by
                  simp [durStep, hdig, hemp, hv, hH, hM, hS]]
              exact ih hrest t [] ht (by simp)

/-- **C10, counterexample.** The claim says the parser never raises an
exception.  It can: on `"PT²S"` the character '²' passes the Unicode-aware
`ch.isdigit()` and is accumulated into `num`, and at the following unit
letter `int('²')` raises `ValueError` — the run raises (returns `none`)
instead of returning an integer. -/
theorem parse_iso_duration_exception_counterexample :
    parse_iso_duration "PT²S" = none := by rfl

/-- **C10, amended.** For every input string the duration parser terminates
(the embedding is total); whenever it returns without raising, the result
is a non-negative integer; and on every all-ASCII input — including the
empty string, strings without the 'PT' head, digit runs not followed by a
unit letter and unit letters not preceded by digits — it does not raise.
(On non-ASCII input it can raise: see the counterexample.) -/
theorem parse_iso_duration_nonneg_ascii_total (s : String) :
    (∀ n : Int, parse_iso_duration s = some n → 0 ≤ n) ∧
    ((∀ c ∈ s.toList, c.toNat < 128) →
      ∃ n : Int, parse_iso_duration s = some n ∧ 0 ≤ n) := by
  constructor
  · intro n h
    unfold parse_iso_duration at h
    split_ifs at h with hpt
    · obtain rfl := Option.some.inj h
      exact le_rfl
    · cases hf : (s.toList.drop 2).foldl durStep (some (0, [])) with
      | none => rw [hf] at h; cases h
      | some p =>
        rw [hf] at h
        simp only [Option.map_some', Option.some.injEq] at h
        obtain rfl := h
        exact durStep_fold_sound _ 0 [] le_rfl p.1 p.2 (by rw [hf])
  · intro hascii
    unfold parse_iso_duration
    split_ifs with hpt
    · exact ⟨0, rfl, le_rfl⟩
    · obtain ⟨t, num, heq, ht, -⟩ :=
        durStep_fold_ascii (s.toList.drop 2)
          (fun c hc => hascii c (List.mem_of_mem_drop hc)) 0 [] le_rfl (by simp)
      rw [heq]
      exact ⟨t, rfl, ht⟩

/-- Witness for the amended C10 at the all-ASCII input "PT1M23S". -/
theorem parse_iso_duration_nonneg_ascii_total_witness :
    ∃ n : Int, parse_iso_duration "PT1M23S" = some n ∧ 0 ≤ n :=
  (parse_iso_duration_nonneg_ascii_total "PT1M23S").2 (by decide)

/-- `viral_score` (src/app.py:96-110) on the fields it reads from a row.
`subscribers = none` models an absent/None subscriber entry, which
`row.get("subscribers", 0) or 0` turns into `0`; the code then clamps a
non-positive denominator to `1` and computes
`views/subs * 0.6 + likes/subs * 400`.  Python floats are modelled by `ℚ`
(exact on the integer-valued counterexample below, and sign-faithful: the
float computation maps non-negative non-zero sums to non-zero values). -/
def viral_score (views likes : Int) (subscribers : Option Int) : ℚ :=
  let subs0 : Int := subscribers.getD 0
  let subs : Int := if subs0 ≤ 0 then 1 else subs0
  (views : ℚ) / (subs : ℚ) * (6 / 10) + (likes : ℚ) / (subs : ℚ) * 400

/-- **C1, counterexample.** The claim says that for an unknown (or zero)
subscriber count the virality score is exactly 0.0.  The code instead
substitutes a denominator of 1: an item with 100 views, 0 likes and unknown
subscriber count scores 60, not 0 (and the same with a concrete zero
count). -/
theorem viral_score_zero_subs_counterexample :
    viral_score 100 0 none = 60 ∧ viral_score 100 0 (some 0) = 60 ∧
    (60 : ℚ) ≠ 0 := by
  refine ⟨?_, ?_, by norm_num⟩ <;> norm_num [viral_score]

/-- **C1, amended.** For an item whose subscriber count is unknown (absent)
or `≤ 0`, `viral_score` clamps the denominator to 1 — it produces no null
ratio fields — so the score is `views * 0.6 + likes * 400`; with the
non-negative counts of the pipeline it equals 0 exactly when both views and
likes are 0. -/
theorem viral_score_unknown_or_nonpos (views likes s : Int)
    (hv : 0 ≤ views) (hl : 0 ≤ likes) (hs : s ≤ 0) :
    viral_score views likes none = (views : ℚ) * (6 / 10) + (likes : ℚ) * 400 ∧
    viral_score views likes (some s) = viral_score views likes none ∧
    (viral_score views likes none = 0 ↔ views = 0 ∧ likes = 0) := by
  have hnone : viral_score views likes none
      = (views : ℚ) * (6 / 10) + (likes : ℚ) * 400 := by
    simp [viral_score]
  refine ⟨hnone, ?_, ?_⟩
  · simp [viral_score, hs]
  · rw [hnone]
    constructor
    · intro h
      have hv' : (0 : ℚ) ≤ (views : ℚ) := by exact_mod_cast hv
      have hl' : (0 : ℚ) ≤ (likes : ℚ) := by exact_mod_cast hl
      have h1 : (views : ℚ) * (6 / 10) = 0 ∧ (likes : ℚ) * 400 = 0 := by
        constructor <;> nlinarith
      constructor
      · exact_mod_cast (by nlinarith [h1.1] : (views : ℚ) = 0)
      · exact_mod_cast (by nlinarith [h1.2] : (likes : ℚ) = 0)
    · rintro ⟨rfl, rfl⟩
      norm_num

/-- Witness for the amended C1 at views 100, likes 2, subscriber count 0. -/
theorem viral_score_unknown_or_nonpos_witness :
    viral_score 100 2 none = (100 : ℚ) * (6 / 10) + (2 : ℚ) * 400 ∧
    viral_score 100 2 (some 0) = viral_score 100 2 none ∧
    (viral_score 100 2 none = 0 ↔ (100 : Int) = 0 ∧ (2 : Int) = 0) :=
  viral_score_unknown_or_nonpos 100 2 0 (by norm_num) (by norm_num) le_rfl

/-- `list(dict.fromkeys(video_ids))` (src/app.py:284): keep the first
occurrence of each identifier, in first-seen order. -/
def dedup_first {α : Type} [DecidableEq α] : List α → List α
  | [] => []
  | x :: xs => x :: dedup_first (xs.filter (fun y => y ≠ x))
termination_by l => l.length
decreasing_by
  simp only [List.length_cons]
  exact Nat.lt_succ_of_le (List.length_filter_le _ _)

lemma mem_dedup_first {α : Type} [DecidableEq α] :
    ∀ (l : List α) (a : α), a ∈ dedup_first l ↔ a ∈ l := by
  intro l
  induction l using dedup_first.induct with
  | case1 => simp [dedup_first]
  | case2 x xs ih =>
    intro a
    rw [dedup_first]
    simp only [List.mem_cons, ih, List.mem_filter, decide_eq_true_eq]
    by_cases hax : a = x
    · simp [hax]
    · simp [hax]

lemma nodup_dedup_first {α : Type} [DecidableEq α] :
    ∀ (l : List α), (dedup_first l).Nodup := by
  intro l
  induction l using dedup_first.induct with
  | case1 => simp [dedup_first]
  | case2 x xs ih =>
    rw [dedup_first]
    refine List.nodup_cons.mpr ⟨?_, ih⟩
    intro hmem
    have := (mem_dedup_first _ x).mp hmem
    simp at this

lemma dedup_first_sublist {α : Type} [DecidableEq α] :
    ∀ (l : List α), List.Sublist (dedup_first l) l := by
  intro l
  induction l using dedup_first.induct with
  | case1 => simp [dedup_first]
  | case2 x xs ih =>
    rw [dedup_first]
    exact List.Sublist.cons₂ x (ih.trans (List.filter_sublist xs))

lemma indexOf_filter_lt {α : Type} [DecidableEq α] (p : α → Bool) :
    ∀ (l : List α) (a b : α), a ≠ b → p a = true → p b = true →
    l.indexOf a < l.indexOf b → (l.filter p).indexOf a < (l.filter p).indexOf b := by
  intro l
  induction l with
  | nil => intro a b _ _ _ h; simp at h
  | cons y ys ih =>
    intro a b hab hpa hpb hlt
    by_cases hpy : p y = true
    · rw [List.filter_cons_of_pos hpy]
      by_cases hya : y = a
      · subst hya
        rw [List.indexOf_cons_self]
        have hyb : y ≠ b := hab
        rw [List.indexOf_cons_ne _ hyb]
        exact Nat.succ_pos _
      · have hyb : y ≠ b := by
          rintro rfl
          rw [List.indexOf_cons_self] at hlt
          exact Nat.not_lt_zero _ hlt
        rw [List.indexOf_cons_ne _ hya, List.indexOf_cons_ne _ hyb] at hlt
        rw [List.indexOf_cons_ne _ hya, List.indexOf_cons_ne _ hyb]
        exact Nat.succ_lt_succ (ih a b hab hpa hpb (Nat.lt_of_succ_lt_succ hlt))
    · have hya : y ≠ a := by rintro rfl; exact hpy hpa
      have hyb : y ≠ b := by rintro rfl; exact hpy hpb
      rw [List.indexOf_cons_ne _ hya, List.indexOf_cons_ne _ hyb] at hlt
      rw [List.filter_cons_of_neg (by simpa using hpy)]
      exact ih a b hab hpa hpb (Nat.lt_of_succ_lt_succ hlt)

lemma dedup_first_indexOf_mono {α : Type} [DecidableEq α] :
    ∀ (l : List α) (a b : α), a ≠ b → a ∈ l → b ∈ l →
    l.indexOf a < l.indexOf b →
    (dedup_first l).indexOf a < (dedup_first l).indexOf b := by
  intro l
  induction l using dedup_first.induct with
  | case1 => intro a b _ ha _ _; simp at ha
  | case2 x xs ih =>
    intro a b hab ha hb hlt
    rw [dedup_first]
    by_cases hxa : x = a
    · subst hxa
      rw [List.indexOf_cons_self]
      have hxb : x ≠ b := hab
      rw [List.indexOf_cons_ne _ hxb]
      exact Nat.succ_pos _
    · have hxb : x ≠ b := by
        rintro rfl
        rw [List.indexOf_cons_self] at hlt
        exact Nat.not_lt_zero _ hlt
      have ha' : a ∈ xs := by
        rcases List.mem_cons.mp ha with h | h
        · exact absurd h.symm hxa
        · exact h
      have hb' : b ∈ xs := by
        rcases List.mem_cons.mp hb with h | h
        · exact absurd h.symm hxb
        · exact h
      rw [List.indexOf_cons_ne _ hxa, List.indexOf_cons_ne _ hxb] at hlt
      have hlt' : xs.indexOf a < xs.indexOf b := Nat.lt_of_succ_lt_succ hlt
      have hpa : (fun y => decide (y ≠ x)) a = true := by simp [hxa, Ne.symm hxa]
      have hpb : (fun y => decide (y ≠ x)) b = true := by simp [hxb, Ne.symm hxb]
      have hfa : a ∈ xs.filter (fun y => decide (y ≠ x)) :=
        List.mem_filter.mpr ⟨ha', hpa⟩
      have hfb : b ∈ xs.filter (fun y => decide (y ≠ x)) :=
        List.mem_filter.mpr ⟨hb', hpb⟩
      have hflt := indexOf_filter_lt (fun y => decide (y ≠ x)) xs a b hab hpa hpb hlt'
      rw [List.indexOf_cons_ne _ hxa, List.indexOf_cons_ne _ hxb]
      exact Nat.succ_lt_succ (ih a b hab hfa hfb hflt)

/-- The batching loop `for i in range(0, len(video_ids), 50)` with slices
`video_ids[i:i+50]` (src/app.py:297-298): contiguous chunks of at most 50
identifiers, one detail-fetch call per chunk. -/
def batches50 {α : Type} : List α → List (List α)
  | [] => []
  | x :: xs => ((x :: xs).take 50) :: batches50 ((x :: xs).drop 50)
termination_by l => l.length
decreasing_by
  simp only [List.length_drop, List.length_cons]
  omega

lemma length_batches50 {α : Type} :
    ∀ (l : List α), (batches50 l).length = (l.length + 49) / 50 := by
  intro l
  induction l using batches50.induct with
  | case1 => simp [batches50]
  | case2 x xs ih =>
    rw [batches50]
    simp only [List.length_cons, ih, List.length_drop]
    omega

lemma batches50_mem_length {α : Type} :
    ∀ (l : List α) (b : List α), b ∈ batches50 l → b.length ≤ 50 ∧ b ≠ [] := by
  intro l
  induction l using batches50.induct with
  | case1 => simp [batches50]
  | case2 x xs ih =>
    intro b hb
    rw [batches50] at hb
    rcases List.mem_cons.mp hb with h | h
    · subst h
      constructor
      · simp
      · simp
    · exact ih b h

lemma batches50_flatten {α : Type} :
    ∀ (l : List α), (batches50 l).flatten = l := by
  intro l
  induction l using batches50.induct with
  | case1 => simp [batches50]
  | case2 x xs ih =>
    rw [batches50, List.flatten_cons, ih]
    exact List.take_append_drop 50 (x :: xs)

/-- **C4.** The pipeline deduplicates the pagination output before any
detail-fetch call (src/app.py:284): the deduplicated list has no duplicates,
is a subsequence of the raw sequence (relative order preserved), keeps
exactly the identifiers that occurred, keeps first occurrences in first-seen
order (first-occurrence positions are mapped monotonically), and the
concatenation of all detail-fetch batches built from it repeats no
identifier. -/
theorem dedup_before_detail_fetch (ids : List String) :
    (dedup_first ids).Nodup ∧
    List.Sublist (dedup_first ids) ids ∧
    (∀ a, a ∈ dedup_first ids ↔ a ∈ ids) ∧
    (∀ a b, a ≠ b → a ∈ ids → b ∈ ids → ids.indexOf a < ids.indexOf b →
      (dedup_first ids).indexOf a < (dedup_first ids).indexOf b) ∧
    ((batches50 (dedup_first ids)).flatten).Nodup := by
  refine ⟨nodup_dedup_first ids, dedup_first_sublist ids, mem_dedup_first ids,
    dedup_first_indexOf_mono ids, ?_⟩
  rw [batches50_flatten]
  exact nodup_dedup_first ids

/-- **C5.** The detail-fetch stage over an identifier list issues exactly
`⌈L/50⌉` calls (`(L + 49) / 50` in natural division), each over a contiguous
chunk of at most 50 identifiers, the concatenation of the per-call inputs is
the original sequence, and — for the duplicate-free sequences the pipeline
feeds it (src/app.py:284 dedups immediately before) — no identifier is
repeated across calls. -/
theorem batching_correct {α : Type} [DecidableEq α] (ids : List α) :
    (batches50 ids).length = (ids.length + 49) / 50 ∧
    (∀ b ∈ batches50 ids, b.length ≤ 50) ∧
    (batches50 ids).flatten = ids ∧
    (ids.Nodup → (batches50 ids).Pairwise List.Disjoint) := by
  refine ⟨length_batches50 ids, fun b hb => (batches50_mem_length ids b hb).1,
    batches50_flatten ids, fun hnd => ?_⟩
  have : ((batches50 ids).flatten).Nodup := by
    rw [batches50_flatten]; exact hnd
  exact (List.nodup_flatten.mp this).2

/-- Witness for C5 at a concrete 3-element list with a 2-call batching
(degenerate cap exercise is impossible at 50; this exercises the general
statement and discharges the `Nodup` hypothesis). -/
theorem batching_correct_witness :
    (batches50 ["a", "b", "c"]).length = (3 + 49) / 50 ∧
    (∀ b ∈ batches50 ["a", "b", "c"], b.length ≤ 50) ∧
    (batches50 ["a", "b", "c"]).flatten = ["a", "b", "c"] ∧
    (batches50 ["a", "b", "c"]).Pairwise List.Disjoint := by
  have h := batching_correct ["a", "b", "c"]
  exact ⟨h.1, h.2.1, h.2.2.1, h.2.2.2 (by decide)⟩

/-- Witness for C4 applied at a concrete list with a duplicate. -/
theorem dedup_before_detail_fetch_witness :
    (dedup_first ["a", "b", "a"]).Nodup ∧
    (dedup_first ["a", "b", "a"]).indexOf "a" < (dedup_first ["a", "b", "a"]).indexOf "b" := by
  have h := dedup_before_detail_fetch ["a", "b", "a"]
  refine ⟨h.1, ?_⟩
  exact h.2.2.2.1 "a" "b" (by decide) (by decide) (by decide) (by decide)

/-- One upstream search response (src/app.py:277-280): the identifiers the
page returns for a requested page size, and the optional continuation
token. -/
structure SearchPage where
  ids : Nat → List String
  nextPageToken : Option String

/-- The pagination loop of `search_and_export` (src/app.py:261-282):
`while len(video_ids) < max_results`, fetch a page of size
`min(50, max_results - len(video_ids))`, extend, and break when the response
carries no `nextPageToken`.  `pages` is the finite sequence of responses the
upstream gives to successive calls. -/
def collect_video_ids (maxResults : Nat) (acc : List String) :
    List SearchPage → List String
  | [] => acc
  | p :: rest =>
    if maxResults ≤ acc.length then acc
    else
      let got := p.ids (min 50 (maxResults - acc.length))
      match p.nextPageToken with
      | none => acc ++ got
      | some _ => collect_video_ids maxResults (acc ++ got) rest

/-- The full pagination run, starting from `video_ids = []`. -/
def paginateRun (maxResults : Nat) (pages : List SearchPage) : List String :=
  collect_video_ids maxResults [] pages

lemma collect_video_ids_length_le (maxResults : Nat) :
    ∀ (pages : List SearchPage) (acc : List String),
    (∀ p ∈ pages, ∀ n, (p.ids n).length ≤ n) →
    acc.length ≤ maxResults →
    (collect_video_ids maxResults acc pages).length ≤ maxResults := by
  intro pages
  induction pages with
  | nil => intro acc _ hacc; simpa [collect_video_ids] using hacc
  | cons p rest ih =>
    intro acc hp hacc
    rw [collect_video_ids]
    by_cases hstop : maxResults ≤ acc.length
    · simpa [hstop] using hacc
    · have hlt : acc.length < maxResults := Nat.lt_of_not_le hstop
      have hgot : (p.ids (min 50 (maxResults - acc.length))).length
          ≤ maxResults - acc.length :=
        le_trans (hp p (List.mem_cons_self p rest) _) (Nat.min_le_right _ _)
      have hlen : (acc ++ p.ids (min 50 (maxResults - acc.length))).length
          ≤ maxResults := by
        rw [List.length_append]
        omega
      simp only [hstop, if_false]
      cases htok : p.nextPageToken with
      | none => simpa using hlen
      | some tok =>
        exact ih _ (fun q hq => hp q (List.mem_cons_of_mem p hq)) hlen

/-- **C3, amended.** The pagination loop (a total function of the finite
upstream response sequence, hence terminating) stops when the collected
count reaches `target_count` and when a response carries no continuation
token, and — whenever every response holds the requested page size, as the
upstream API guarantees — the collected count never exceeds `target_count`.
An empty page with a continuation token does not stop the loop (see the
counterexample). -/
theorem pagination_terminates_bounded (t : Nat) (pages : List SearchPage)
    (h : ∀ p ∈ pages, ∀ n, (p.ids n).length ≤ n) :
    (paginateRun t pages).length ≤ t ∧
    (∀ (acc : List String) (ps : List SearchPage), t ≤ acc.length →
      collect_video_ids t acc ps = acc) ∧
    (∀ (acc : List String) (p : SearchPage) (rest : List SearchPage),
      acc.length < t → p.nextPageToken = none →
      collect_video_ids t acc (p :: rest)
        = acc ++ p.ids (min 50 (t - acc.length))) := by
  refine ⟨collect_video_ids_length_le t pages [] h (by simp), ?_, ?_⟩
  · intro acc ps hacc
    cases ps with
    | nil => rfl
    | cons p rest => rw [collect_video_ids]; simp [hacc]
  · intro acc p rest hacc htok
    rw [collect_video_ids]
    simp [Nat.not_le.mpr hacc, htok]

/-- Witness for the amended C3: two pages of one id each, target 10. -/
theorem pagination_terminates_bounded_witness :
    (paginateRun 10 [⟨fun n => List.take n ["a"], some "t"⟩,
      ⟨fun n => List.take n ["b"], none⟩]).length ≤ 10 :=
  (pagination_terminates_bounded 10
    [⟨fun n => List.take n ["a"], some "t"⟩, ⟨fun n => List.take n ["b"], none⟩]
    (by intro p hp n
        simp only [List.mem_cons, List.not_mem_nil, or_false] at hp
        rcases hp with rfl | rfl <;> simp)).1

/-- **C3, counterexample.** The claim also asserts the loop stops when the
upstream returns an empty page.  It does not: with a first page that is
empty but carries a continuation token, the loop issues another fetch and
collects the second page's identifier. -/
theorem pagination_empty_page_counterexample :
    paginateRun 10 [⟨fun _ => [], some "tok"⟩, ⟨fun _ => ["a"], none⟩]
      = ["a"] ∧ (["a"] : List String) ≠ [] := by
  constructor
  · rw [paginateRun, collect_video_ids]
    norm_num
    rw [collect_video_ids]
    norm_num
  · simp

/-- The fields of one item of a `videos().list` response that the code reads
(src/app.py:304-322).  `duration = none` models an absent `duration` key
(the code defaults it to `"PT0S"`). -/
structure RawItem where
  videoId : String
  title : String
  channelTitle : String
  publishedAt : String
  duration : Option String
  viewCount : Int
  likeCount : Int
  commentCount : Int

/-- `to_yyyy_mm_dd` (src/app.py:61-66): `ts[:10]`. -/
def to_yyyy_mm_dd (ts : String) : String := ts.take 10

/-- The row dict built per surviving item (src/app.py:329-342).  The field
holding the `"viral_score"` entry is named `viral` here to avoid clashing
with the function. -/
structure Row where
  video_id : String
  url : String
  title : String
  channel_title : String
  published_at : String
  published_date : String
  duration_sec : Int
  views : Int
  likes : Int
  comments : Int
  subscribers : Int
  viral : ℚ
deriving DecidableEq

/-- Row construction (src/app.py:310, 315-342): duration from the parser,
`subscribers` hardcoded to the placeholder `0` (src/app.py:324-327), and the
score computed on that row.  The `getD 0` branch fires only when the parser
raises, in which case the Python run aborts with an uncaught exception and
produces no result at all; upstream API duration tokens are ASCII, where
the parser never raises (amended C10), so the row theorems below describe
the runs the code completes. -/
def build_row (it : RawItem) : Row :=
  let d : Int := (parse_iso_duration (it.duration.getD "PT0S")).getD 0
  { video_id := it.videoId
    url := "https://www.youtube.com/watch?v=" ++ it.videoId
    title := it.title
    channel_title := it.channelTitle
    published_at := it.publishedAt
    published_date := to_yyyy_mm_dd it.publishedAt
    duration_sec := d
    views := it.viewCount
    likes := it.likeCount
    comments := it.commentCount
    subscribers := 0
    viral := viral_score it.viewCount it.likeCount (some 0) }

/-- The duration filter condition (src/app.py:312-313):
`if shorts_only and duration_sec > max_duration_sec: continue`. -/
def duration_excluded (shorts_only : Bool) (max_duration_sec duration_sec : Int) : Bool :=
  shorts_only && decide (duration_sec > max_duration_sec)

/-- Per-batch item processing (src/app.py:304-343): every returned item is
parsed, filtered by duration, and turned into a row. -/
def process_items (shorts_only : Bool) (max_duration_sec : Int)
    (items : List RawItem) : List Row :=
  items.filterMap fun it =>
    let d : Int := (parse_iso_duration (it.duration.getD "PT0S")).getD 0
    if duration_excluded shorts_only max_duration_sec d then none
    else some (build_row it)

/-- The sort key relation of `videos.sort(key=..., reverse=True)`
(src/app.py:346): `a` may precede `b` exactly when `b.views ≤ a.views`.
Python's sort is stable (also with `reverse=True`), and a stable
descending-by-key sort has a unique output, so the stable `List.mergeSort`
below is an exact model of it. -/
def views_desc (a b : Row) : Bool := decide (b.views ≤ a.views)

/-- The sheet URL built by `write_sheet` (src/app.py:200). -/
def sheet_url_of (spreadsheet_id : String) : String :=
  "https://docs.google.com/spreadsheets/d/" ++ spreadsheet_id ++ "/edit#gid=0"

/-- The export guard (src/app.py:349-350): `if auto_sheet and videos:`.
Returns the produced sheet location (if any) and the number of
`write_sheet` invocations. -/
def export_step (auto_sheet : Bool) (videos : List Row)
    (spreadsheet_id : String) : Option String × Nat :=
  if auto_sheet && !videos.isEmpty then (some (sheet_url_of spreadsheet_id), 1)
  else (none, 0)

/-- The observable outcome of one `search_and_export` run, together with
counters for the upstream calls the run issued. -/
structure PipelineResult where
  keyword : String
  count : Nat
  videos : List Row
  sheet_url : Option String
  itemDetailCalls : Nat
  ownerDetailCalls : Nat
  sheetWriteCalls : Nat
deriving DecidableEq

/-- `search_and_export` (src/app.py:241-387): paginate, dedup, short-circuit
on an empty id list (src/app.py:286-293), batch-fetch details (`detail` maps
each id to its record, or `none` for deleted/private items, which are simply
absent from the response), filter by duration, build rows, sort by views
descending, and (optionally) export.  The code never calls the channels
API — `ownerDetailCalls` is identically 0 (src/app.py:324-327). -/
def search_and_export (q spreadsheet_id : String) (max_results : Nat)
    (shorts_only : Bool) (max_duration_sec : Int) (auto_sheet : Bool)
    (pages : List SearchPage) (detail : String → Option RawItem) :
    PipelineResult :=
  let video_ids := dedup_first (paginateRun max_results pages)
  if video_ids = [] then
    { keyword := q, count := 0, videos := [], sheet_url := none,
      itemDetailCalls := 0, ownerDetailCalls := 0, sheetWriteCalls := 0 }
  else
    let bs := batches50 video_ids
    let videos :=
      (bs.map fun b => process_items shorts_only max_duration_sec
        (b.filterMap detail)).flatten
    let sorted := videos.mergeSort views_desc
    let ex := export_step auto_sheet sorted spreadsheet_id
    { keyword := q, count := sorted.length, videos := sorted,
      sheet_url := ex.1, itemDetailCalls := bs.length,
      ownerDetailCalls := 0, sheetWriteCalls := ex.2 }

/-- **C2, code evaluation.** The claim says the join step copies the owner's
real subscriber count and records absent/hidden owners with an "unknown"
sentinel distinct from zero.  The code has no join step at all: every built
row carries the hardcoded placeholder `subscribers = 0` (src/app.py:324-327,
the code's own comment calls it a placeholder), and so does every row of
every pipeline run — an absent or hidden owner is conflated with the
concrete count 0. -/
theorem subscribers_hardcoded_zero :
    (∀ it : RawItem, (build_row it).subscribers = 0) ∧
    (∀ (q sid : String) (mr : Nat) (so : Bool) (md : Int) (auto : Bool)
      (pages : List SearchPage) (detail : String → Option RawItem)
      (r : Row), r ∈ (search_and_export q sid mr so md auto pages detail).videos →
      r.subscribers = 0) := by
  constructor
  · intro it; rfl
  · intro q sid mr so md auto pages detail r hr
    unfold search_and_export at hr
    by_cases hids : dedup_first (paginateRun mr pages) = []
    · simp only [hids, if_true] at hr
      simp at hr
    · simp only [hids, if_false] at hr
      rw [List.mem_mergeSort] at hr
      rw [List.mem_flatten] at hr
      obtain ⟨l, hl, hrl⟩ := hr
      rw [List.mem_map] at hl
      obtain ⟨b, -, rfl⟩ := hl
      rw [process_items] at hrl
      rw [List.mem_filterMap] at hrl
      obtain ⟨it, -, hit⟩ := hrl
      by_cases hex : duration_excluded so md
          ((parse_iso_duration (it.duration.getD "PT0S")).getD 0) = true
      · simp [hex] at hit
      · simp only [hex, Bool.false_eq_true, if_false, Option.some.injEq] at hit
        subst hit
        rfl

/-- A concrete fetched item (whose channel may well have a hidden
subscriber count — the code cannot know, it never asks). -/
def sample_item : RawItem :=
  { videoId := "A", title := "t", channelTitle := "c",
    publishedAt := "2024-01-02T03:04:05Z", duration := some "PT30S",
    viewCount := 100, likeCount := 5, commentCount := 1 }

/-- A one-page, one-item upstream for the C2 witness run. -/
def sample_pages : List SearchPage := [⟨fun n => List.take n ["A"], none⟩]

/-- The detail endpoint of the C2 witness run. -/
def sample_detail (s : String) : Option RawItem :=
  if s = "A" then some sample_item else none

lemma sample_run_videos :
    (search_and_export "kw" "sheet" 5 false 180 false sample_pages
      sample_detail).videos = [build_row sample_item] := by
  have h1 : paginateRun 5 sample_pages = ["A"] := rfl
  unfold search_and_export
  rw [h1]
  have h2 : dedup_first ["A"] = ["A"] := by simp [dedup_first]
  rw [h2]
  have h3 : batches50 ["A"] = [["A"]] := by simp [batches50]
  simp [h3, sample_detail, process_items, duration_excluded]

/-- Witness for C2: the row built from `sample_item` in a full concrete run
carries the concrete subscriber count 0. -/
theorem subscribers_hardcoded_zero_witness :
    (build_row sample_item).subscribers = 0 :=
  subscribers_hardcoded_zero.2 "kw" "sheet" 5 false 180 false sample_pages
    sample_detail (build_row sample_item) (by simp [sample_run_videos])

/-- **C6.** With the shorts-only flag set, an item whose duration equals
`max_duration_sec` is retained (the strict `>` does not fire) and one
second more is excluded; with the flag unset nothing is excluded by
duration.  The last conjunct shows `process_items` applies exactly this
condition. -/
theorem duration_filter_boundary (m : Int) :
    duration_excluded true m m = false ∧
    duration_excluded true m (m + 1) = true ∧
    (∀ d : Int, duration_excluded false m d = false) ∧
    (∀ (so : Bool) (it : RawItem),
      process_items so m [it] =
        if duration_excluded so m
            ((parse_iso_duration (it.duration.getD "PT0S")).getD 0) = true
        then [] else [build_row it]) := by
  refine ⟨by simp [duration_excluded], by simp [duration_excluded],
    fun d => by simp [duration_excluded], fun so it => ?_⟩
  rw [process_items]
  by_cases hex : duration_excluded so m
      ((parse_iso_duration (it.duration.getD "PT0S")).getD 0) = true
  · simp [hex]
  · simp [hex]

/-- **C7.** The final ranking (src/app.py:346) sorts by view count
descending — the output is pairwise ordered by `views_desc` and a
permutation of its input — and is stable: any two items with equal view
count that appear in some order in the pre-sort list appear in the same
order in the sorted output. -/
theorem ranking_sorted_stable (videos : List Row) :
    (videos.mergeSort views_desc).Pairwise (fun a b => b.views ≤ a.views) ∧
    List.Perm (videos.mergeSort views_desc) videos ∧
    (∀ a b : Row, a.views = b.views → List.Sublist [a, b] videos →
      List.Sublist [a, b] (videos.mergeSort views_desc)) := by
  have htrans : ∀ a b c : Row, views_desc a b → views_desc b c → views_desc a c := by
    intro a b c hab hbc
    simp only [views_desc, decide_eq_true_eq] at hab hbc ⊢
    exact le_trans hbc hab
  have htotal : ∀ a b : Row, views_desc a b || views_desc b a := by
    intro a b
    simp only [views_desc]
    rcases le_total a.views b.views with h | h <;> simp [h]
  refine ⟨?_, List.mergeSort_perm videos views_desc, ?_⟩
  · have := List.sorted_mergeSort htrans htotal videos
    exact this.imp fun {a b} h => by
      simpa [views_desc, decide_eq_true_eq] using h
  · intro a b hab hsub
    exact List.pair_sublist_mergeSort htrans htotal
      (by simp [views_desc, hab]) hsub

/-- A concrete row used by the C7 witness. -/
def sample_rowA : Row :=
  { video_id := "A", url := "", title := "", channel_title := "",
    published_at := "", published_date := "", duration_sec := 30,
    views := 10, likes := 1, comments := 0, subscribers := 0, viral := 0 }

/-- A second concrete row with the same view count as `sample_rowA`. -/
def sample_rowB : Row :=
  { video_id := "B", url := "", title := "", channel_title := "",
    published_at := "", published_date := "", duration_sec := 40,
    views := 10, likes := 2, comments := 0, subscribers := 0, viral := 0 }

/-- Witness for C7: two rows with equal view counts keep their pre-sort
order. -/
theorem ranking_sorted_stable_witness :
    List.Sublist [sample_rowA, sample_rowB]
      ([sample_rowA, sample_rowB].mergeSort views_desc) :=
  (ranking_sorted_stable [sample_rowA, sample_rowB]).2.2 sample_rowA sample_rowB
    rfl (List.Sublist.refl _)

/-- **C8.** A run whose search stage collects no identifiers short-circuits:
the result is the distinct non-error empty value (count 0, empty
collection, no sheet), and no item-detail call — and, as everywhere in this
code, no owner-detail call — is issued. -/
theorem empty_search_short_circuit (q sid : String) (mr : Nat) (so : Bool)
    (md : Int) (auto : Bool) (pages : List SearchPage)
    (detail : String → Option RawItem)
    (h : paginateRun mr pages = []) :
    search_and_export q sid mr so md auto pages detail =
      { keyword := q, count := 0, videos := [], sheet_url := none,
        itemDetailCalls := 0, ownerDetailCalls := 0, sheetWriteCalls := 0 } := by
  unfold search_and_export
  rw [h]
  simp [dedup_first]

/-- Witness for C8: a run against an upstream with no pages. -/
theorem empty_search_short_circuit_witness :
    search_and_export "kw" "sheet" 100 true 180 true [] (fun _ => none) =
      { keyword := "kw", count := 0, videos := [], sheet_url := none,
        itemDetailCalls := 0, ownerDetailCalls := 0, sheetWriteCalls := 0 } :=
  empty_search_short_circuit "kw" "sheet" 100 true 180 true [] (fun _ => none) rfl

/-- **C9.** Export with an empty row set is rejected before any spreadsheet
call: `export_step` (the guard `if auto_sheet and videos:` of
src/app.py:349-350) performs zero `write_sheet` calls and produces no sheet
location, for any flag value and any spreadsheet id. -/
theorem export_empty_rejected (auto : Bool) (sid : String) :
    export_step auto [] sid = (none, 0) := by
  cases auto <;> simp [export_step]

end ShortsAnalyzer
